import Mathlib

/-!
Verification of the concurrency/resource core of the `etl_analysis` repository:
a shallow embedding of `src/sftpPool.js` (connection pool, breaker, retrying
proxy) and `src/excelAutoKNFO.js` (job scheduler: scan, pick, dispatch,
quarantine), with theorems settling the specification's claims about them.
-/

namespace Etl

/-! ## Constants (from `src/sftpPool.js` and `src/excelAutoKNFO.js`) -/

def MAX_CONN : Nat := 10
def CONNECT_GAP_MS : Nat := 1000
def IDLE_MS : Nat := 90000
def OP_RETRIES : Nat := 2
def BREAKER_BASE_MS : Nat := 60000
def LOCAL_RETRIES : Nat := 6
def BACKOFF_MS : Nat := 2000

def PARALLEL_LIMIT : Nat := 5
def TH_MB : Nat := 20
def MAX_FAILURES : Nat := 3

/-! ## String helpers

`strIncludes s p` embeds JavaScript `s.includes(p)` (substring test); the
`transient` classifier embeds the case-insensitive regex alternation of
literals at `sftpPool.js:36-38`. -/

def hasSubList (p : List Char) : List Char → Bool
  | [] => p.isEmpty
  | c :: rest => p.isPrefixOf (c :: rest) || hasSubList p rest

/-- JavaScript `s.includes(p)` (substring test). -/
def strIncludes (s p : String) : Bool := hasSubList p.toList s.toList

/-- ASCII lower-casing of one character (the case-insensitive regexes and
`toLowerCase()` calls in the source only ever meet ASCII names). -/
def lowerChar (c : Char) : Char :=
  if 65 ≤ c.toNat ∧ c.toNat ≤ 90 then Char.ofNat (c.toNat + 32) else c

def lowerStr (s : String) : List Char := s.toList.map lowerChar

def transientPatterns : List String :=
  ["econn", "handshake", "keepalive", "not connected", "socket", "channel", "no response"]

/-- `transient(e)` from `sftpPool.js:36`: the error string matches
`/ECONN|handshake|keepalive|not connected|socket|channel|no response/i`. -/
def transient (e : String) : Bool :=
  transientPatterns.any (fun p => hasSubList p.toList (lowerStr e))

/-! ## Pool state (`sftpPool.js`) -/

/-- One pool entry `{client, busy, lastUse, ok}` (`sftpPool.js:54-55`);
the live client handle itself is not modelled. -/
structure Entry where
  busy : Bool
  ok : Bool
  lastUse : Nat
deriving Repr, DecidableEq, Inhabited

/-- The `SftpPool` private state: entry list, round-robin cursor `#next`,
last-handshake timestamp `#lastHS`, and global breaker `#fails` /
`#breakerUntil` (`sftpPool.js:42-48`). -/
structure PoolState where
  pool : List Entry
  next : Nat
  lastHS : Nat
  fails : Nat
  breakerUntil : Nat
deriving Repr, DecidableEq

/-- `#failure()` (`sftpPool.js:69-72`): increments `fails` and opens the
breaker until `now + BREAKER_BASE_MS * 2 ^ min (fails - 1) 5` (with the
already-incremented `fails`). -/
def failure (now : Nat) (s : PoolState) : PoolState :=
  { s with fails := s.fails + 1,
           breakerUntil := now + BREAKER_BASE_MS * 2 ^ min (s.fails + 1 - 1) 5 }

/-- `#success()` (`sftpPool.js:73`): resets the failure count and closes the
breaker. -/
def success (s : PoolState) : PoolState := { s with fails := 0, breakerUntil := 0 }

/-- Folding `#failure` over a list of failure timestamps (consecutive
refusal-class connect failures with no intervening success). -/
def applyFailures (ts : List Nat) (s : PoolState) : PoolState :=
  ts.foldl (fun st t => failure t st) s

/-- The instant the handshake of `#connect` starts (`sftpPool.js:76-81`):
`#awaitBreaker` sleeps until `#breakerUntil` has passed, then the
`CONNECT_GAP_MS` pacing gap relative to `#lastHS` is waited out. -/
def handshakeTime (now : Nat) (s : PoolState) : Nat :=
  let t1 := max now s.breakerUntil
  let gap := CONNECT_GAP_MS - (t1 - s.lastHS)
  if 0 < gap then t1 + gap else t1

/-- `#connect` on a successful handshake (`sftpPool.js:76-86`): waits out
breaker and pacing gap, records `#lastHS`, marks the entry ok and runs
`#success()`. Returns (handshake instant, new pool state, new entry). -/
def connectOk (now : Nat) (s : PoolState) (e : Entry) : Nat × PoolState × Entry :=
  let hs := handshakeTime now s
  (hs, success { s with lastHS := hs }, { e with ok := true })

/-! ## `#acquire` (`sftpPool.js:110-126`) -/

/-- The idle sweep at the top of `#acquire` (`sftpPool.js:112-117`): free,
healthy entries idle for more than `IDLE_MS` are ended and marked not ok. -/
def idleSweep (now : Nat) (pool : List Entry) : List Entry :=
  pool.map (fun e =>
    if !e.busy && e.ok && decide (IDLE_MS < now - e.lastUse) then { e with ok := false } else e)

/-- `#acquire` (`sftpPool.js:110-126`), modelled under the assumption that
`#ready` succeeds (so the selected entry ends up with `ok = true`; a fresh
`#newEntry` starts `{busy := false, ok := false, lastUse := 0}` and is then
connected).  The selection index `#next++ % pool.length` is computed before
the possible push; with an empty pool the lookup yields no entry.  Returns
the index of the leased entry in the resulting pool together with the new
pool state. -/
def acquire (now : Nat) (s : PoolState) : Nat × PoolState :=
  let pool := idleSweep now s.pool
  let next' := s.next + 1
  if pool.length = 0 ∨ pool.length < MAX_CONN then
    ( pool.length,
      { s with pool := pool ++ [{ busy := true, ok := true, lastUse := 0 }], next := next' } )
  else
    let i := s.next % pool.length
    let e := pool.getD i default
    (i, { s with pool := pool.set i { e with ok := true, busy := true }, next := next' })

/-! ## The proxied operation loop (`sftpPool.js:140-157`)

An acquired entry is run through the `for(let i=0;i<=OP_RETRIES;i++)` loop.
Each iteration either resolves the operation (`.ok v`) or rejects with an
error message; on a transient error before the last attempt the entry is
invalidated (`entry.ok=false`) and `#ready` re-establishes the connection
(`readyOk` tells whether that reconnection succeeds — when `#ready` exhausts
its `LOCAL_RETRIES` connect attempts it throws out of the `catch` block).
`releases` counts the calls to `#release` (which clears `entry.busy`), and
`reconnects` counts the successful `#ready` re-establishments. -/

inductive IterOutcome where
  | ok (v : Nat)
  | fail (msg : String) (readyOk : Bool)
deriving Repr, DecidableEq

inductive OpResult where
  | success (v : Nat)
  | raised (msg : String)
  | connectFailed
deriving Repr, DecidableEq

structure OpTrace where
  result : OpResult
  releases : Nat
  reconnects : Nat
deriving Repr, DecidableEq

/-- The proxy's retry loop from iteration `i` on, driven by the trace of
what each successive attempt of the underlying client operation does.
Mirrors `sftpPool.js:143-154` line by line: a resolved attempt releases and
returns; a non-transient error or the error of the last iteration
(`i === OP_RETRIES`) releases and re-raises; a transient error before that
invalidates the entry and re-establishes the connection (`readyOk = true`),
or — when `#ready` itself throws — propagates that error with *no* release.
A trace as long as the iterations actually executed determines the run. -/
def opLoop (i : Nat) : List IterOutcome → OpTrace
  | [] => { result := .raised "", releases := 0, reconnects := 0 }
  | o :: rest =>
    match o with
    | .ok v => { result := .success v, releases := 1, reconnects := 0 }
    | .fail msg rOk =>
      if transient msg = false ∨ i = OP_RETRIES then
        { result := .raised msg, releases := 1, reconnects := 0 }
      else if rOk then
        let r := opLoop (i + 1) rest
        { r with reconnects := r.reconnects + 1 }
      else
        { result := .connectFailed, releases := 0, reconnects := 0 }

/-- The whole `op()` of `getProxy` (`sftpPool.js:142-155`): the loop from
`i = 0`. -/
def runProxyOp (trace : List IterOutcome) : OpTrace := opLoop 0 trace

/-! ## Scheduler data model (`src/excelAutoKNFO.js`)

JavaScript `Map`s are modelled as association lists with unique keys (all
maps in the source start empty and are only updated through `set`/`delete`,
which keep keys unique); `Set`s are modelled as duplicate-free lists. -/

def alookup {β : Type} : List (String × β) → String → Option β
  | [], _ => none
  | (k0, v0) :: rest, k => if k0 = k then some v0 else alookup rest k

/-- `Map.set`: replaces the value at an existing key in place, appends a new
key at the end (insertion order is preserved, as in JavaScript). -/
def aset {β : Type} : List (String × β) → String → β → List (String × β)
  | [], k, v => [(k, v)]
  | (k0, v0) :: rest, k, v =>
    if k0 = k then (k, v) :: rest else (k0, v0) :: aset rest k v

/-- `Map.delete`: removes the (unique) binding of the key. -/
def adel {β : Type} (m : List (String × β)) (k : String) : List (String × β) :=
  m.filter (fun kv => kv.1 ≠ k)

/-- `Set.add` (a no-op when the element is present). -/
def sAdd (s : List String) (k : String) : List String :=
  if k ∈ s then s else s ++ [k]

/-- `Set.delete`. -/
def sDel (s : List String) (k : String) : List String :=
  s.filter (fun x => x ≠ k)

/-- A queued job descriptor `{ name, sizeMB }` (`excelAutoKNFO.js:113`,
`326`).  The source stores fractional megabytes (`size / (1024*1024)` as a
float); the model keeps whole megabytes, which is all the threshold
comparisons depend on. -/
structure Job where
  name : String
  sizeMB : Nat
deriving Repr, DecidableEq, Inhabited

/-- The `queues` map `ctx → [{name, sizeMB}]` (`excelAutoKNFO.js:113`). -/
abbrev Queues := List (String × List Job)

def qGet (qs : Queues) (c : String) : List Job := (alookup qs c).getD []

/-- `keyOf(ctx, file)` (`excelAutoKNFO.js:43`). -/
def keyOf (ctx file : String) : String := ctx ++ ":" ++ file

inductive Phase where
  | IDLE
  | BOOTED
  | RESCANNED
deriving Repr, DecidableEq

/-- The scheduler's mutable module-level state (`excelAutoKNFO.js:112-122`). -/
structure SchedState where
  queues : Queues
  inFlight : List String
  processedOK : List String
  flags : List (String × Bool)
  failedFiles : List (String × Nat)
  phase : Phase
  ticking : Bool
deriving Repr, DecidableEq

def queuesEmpty (qs : Queues) : Bool := ! qs.any (fun cq => ! cq.2.isEmpty)

/-- `[...flags.values()].some(v => v.large)` (`excelAutoKNFO.js:521`). -/
def anyLargeFlag (fl : List (String × Bool)) : Bool := fl.any (fun kv => kv.2)

def fcGet (m : List (String × Nat)) (k : String) : Nat := (alookup m k).getD 0

/-! ## Batch picking (`excelAutoKNFO.js:398-425`) -/

structure Pick where
  ctx : String
  file : String
  large : Bool
deriving Repr, DecidableEq

/-- The first loop of `pickBatch` (`excelAutoKNFO.js:402-411`): scan the
contexts in order; at the first context whose queue head is at or above
`TH_MB`, dequeue that head and return it as a single exclusive pick. -/
def pickLargeLoop : List String → Queues → Option (Pick × Queues)
  | [], _ => none
  | c :: rest, qs =>
    match qGet qs c with
    | [] => pickLargeLoop rest qs
    | it :: q' =>
      if TH_MB ≤ it.sizeMB then
        some ({ ctx := c, file := it.name, large := true }, aset qs c q')
      else
        pickLargeLoop rest qs

/-- The inner `while` of the second loop of `pickBatch`
(`excelAutoKNFO.js:416-420`): shift jobs below `TH_MB` off the queue head
into `picks` while capacity remains; stop at a large head. -/
def pickSmallCtx (max : Nat) (picks : List Pick) (c : String) :
    List Job → List Pick × List Job
  | [] => (picks, [])
  | it :: q' =>
    if picks.length < max then
      if TH_MB ≤ it.sizeMB then (picks, it :: q')
      else pickSmallCtx max (picks ++ [{ ctx := c, file := it.name, large := false }]) c q'
    else (picks, it :: q')

/-- The second loop of `pickBatch` (`excelAutoKNFO.js:414-423`): visit the
contexts in order, each contributing through `pickSmallCtx`, stopping as
soon as `max` picks are collected. -/
def pickSmallLoop (max : Nat) : List String → Queues → List Pick → List Pick × Queues
  | [], qs, picks => (picks, qs)
  | c :: rest, qs, picks =>
    let pq := pickSmallCtx max picks c (qGet qs c)
    let qs' := aset qs c pq.2
    if pq.1.length = max then (pq.1, qs')
    else pickSmallLoop max rest qs' pq.1

/-- `pickBatch(max)` (`excelAutoKNFO.js:398-425`). -/
def pickBatch (ctxs : List String) (qs : Queues) (max : Nat) : List Pick × Queues :=
  match pickLargeLoop ctxs qs with
  | some (p, qs') => ([p], qs')
  | none => pickSmallLoop max ctxs qs []

/-- The per-source sequential greedy selection the second loop of
`pickBatch` actually performs: from each context in order take the longest
run of below-threshold head jobs that still fits the remaining capacity,
then move to the next context. -/
def seqGreedyPicks (max : Nat) : List String → Queues → List Pick
  | [], _ => []
  | c :: rest, qs =>
    let run := (qGet qs c).takeWhile (fun j => ! decide (TH_MB ≤ j.sizeMB))
    let tk := run.take max
    tk.map (fun j => { ctx := c, file := j.name, large := false })
      ++ seqGreedyPicks (max - tk.length) rest (aset qs c ((qGet qs c).drop tk.length))

/-! ## Job execution bookkeeping (`excelAutoKNFO.js:450-508`) -/

/-- What `runWorker` resolves or rejects with for one job: success, or a
failure whose message may mark it as a timeout (`withTimeout` rejects with
a message containing `TIMEOUT`). -/
inductive JobOutcome where
  | ok
  | err (msg : String)
deriving Repr, DecidableEq

/-- One element of the `processBatch` `map` (`excelAutoKNFO.js:452-501`):
add the key to `inFlight`/`flags`; skip (quarantine-marking) when the key
already has `MAX_FAILURES` recorded failures; otherwise run the worker and
record the outcome; the `finally` removes the key from `inFlight` and
`flags`.  The returned `Bool` tells whether the worker actually ran. -/
def processJob (st : SchedState) (p : Pick) (outcome : JobOutcome) : SchedState × Bool :=
  let k := keyOf p.ctx p.file
  let st1 := { st with inFlight := sAdd st.inFlight k, flags := aset st.flags k p.large }
  -- `failedFiles.get(k) || 0`, read after the in-flight bookkeeping, which
  -- does not touch `failedFiles`:
  let fc := fcGet st.failedFiles k
  let r :=
    if MAX_FAILURES ≤ fc then
      ({ st1 with processedOK := sAdd st1.processedOK k }, false)
    else
      match outcome with
      | .ok =>
        ({ st1 with processedOK := sAdd st1.processedOK k,
                    failedFiles := adel st1.failedFiles k }, true)
      | .err msg =>
        let stf := { st1 with failedFiles := aset st1.failedFiles k (fc + 1) }
        if strIncludes msg "TIMEOUT" && decide (MAX_FAILURES ≤ fc + 1) then
          ({ stf with processedOK := sAdd stf.processedOK k }, true)
        else (stf, true)
  ({ r.1 with inFlight := sDel r.1.inFlight k, flags := adel r.1.flags k }, r.2)

/-- `processBatch(batch)` (`excelAutoKNFO.js:450-508`); `outcomes` gives the
worker outcome per job key.  The batch items run concurrently in the
source, but each key is touched only by its own item, so the fold computes
the same final state. -/
def processBatch (st : SchedState) (batch : List Pick) (outcomes : String → JobOutcome) :
    SchedState :=
  batch.foldl (fun s p => (processJob s p (outcomes (keyOf p.ctx p.file))).1) st

/-- Repeated dispatches of the same job with the given outcomes (one
`processJob` per element); returns the list of worker-ran flags and the
final state. -/
def runJobs (st : SchedState) (p : Pick) : List JobOutcome → List Bool × SchedState
  | [] => ([], st)
  | o :: os =>
    let r := processJob st p o
    let rs := runJobs r.1 p os
    (r.2 :: rs.1, rs.2)

/-! ## Discovery (`excelAutoKNFO.js:252-391`) -/

/-- One entry of an SFTP directory listing (`type` is `"-"` for a regular
file). -/
structure RemoteFile where
  name : String
  ftype : String
  size : Nat
deriving Repr, DecidableEq

def PATTERNS : List String :=
  ["MB51", "MB5B", "ME5A", "S_P99_41000062", "ME2L", "ZMMR_SQVI_BUS_RAPIDA", "ZMMREPO",
   "MRO_IO", "KOB1", "CJI3", "KSB1", "ZFIR_STATSLOAD", "CN41N", "ZRPT_PS_PROJECT", "IW49N",
   "LEK2DAT_FORECAST", "LEK2DAT_STRUCTURE_EE", "LEK2DAT_STRUCTURE_CC", "LEK2DAT_STRUCTURE_CCEE",
   "LEK2DAT_STRUCTURE_ACC", "PRESU", "PATRI"]

/-- `PATTERNS.some(p => name.includes(p))` (`excelAutoKNFO.js:303`). -/
def patternHit (name : String) : Bool := PATTERNS.any (fun p => strIncludes name p)

/-- `name.toLowerCase().endsWith('.xlsx')` (`excelAutoKNFO.js:301`). -/
def endsXlsx (name : String) : Bool := (".xlsx".toList).isSuffixOf (lowerStr name)

/-- `name.slice(0, -5).toLowerCase()` (`excelAutoKNFO.js:308`). -/
def baseLower (name : String) : List Char :=
  (name.toList.take (name.toList.length - 5)).map lowerChar

/-- The first pass of `scanCtx` (`excelAutoKNFO.js:299-327`): filter the
Excel listing down to the pending job descriptors, in listing order.
`knfoSet` and `metaSet` are the lower-cased artifact name sets
(`excelAutoKNFO.js:289-290`), `processed` is the `processedOK` set.  (The
second pass, `excelAutoKNFO.js:331-354`, only counts and logs; it never
adds items.) -/
def scanItems (ctx : String) (xlsList : List RemoteFile)
    (knfoSet metaSet : List (List Char)) (processed : List String) : List Job :=
  xlsList.filterMap (fun f =>
    if f.ftype = "-" ∧ endsXlsx f.name = true then
      if patternHit f.name then
        let base := baseLower f.name
        let hasKnfo := knfoSet.contains (base ++ ".knfo".toList)
        let hasMeta := metaSet.contains (base ++ ".meta".toList)
        if hasKnfo && hasMeta then none
        else if processed.contains (keyOf ctx f.name) && ! (hasKnfo && ! hasMeta) then none
        else some { name := f.name, sizeMB := f.size / (1024 * 1024) }
      else none
    else none)

/-- Descending-size order used by `items.sort((a, b) => b.sizeMB - a.sizeMB)`
(`excelAutoKNFO.js:360`). -/
def sizeDesc (a b : Job) : Prop := b.sizeMB ≤ a.sizeMB

instance : DecidableRel sizeDesc := fun a b => Nat.decLe b.sizeMB a.sizeMB

/-- `scanCtx` (`excelAutoKNFO.js:252-366`): the pending items, sorted
largest-first. -/
def scanCtx (ctx : String) (xlsList : List RemoteFile)
    (knfoSet metaSet : List (List Char)) (processed : List String) : List Job :=
  List.insertionSort sizeDesc (scanItems ctx xlsList knfoSet metaSet processed)

/-- `scanAll` (`excelAutoKNFO.js:368-391`): scan every context into
`tmpQueues` (`fresh`), then — only when the global `inFlight` set is empty —
replace the whole `queues` map with the fresh scans; otherwise leave every
queue as it was. -/
def scanAll (ctxs : List String) (fresh : String → List Job)
    (inFlight : List String) (qs : Queues) : Queues :=
  if inFlight.isEmpty then ctxs.map (fun c => (c, fresh c)) else qs

/-! ## The tick (`excelAutoKNFO.js:511-605`) -/

/-- The body of `tick()` after the re-entrancy guard
(`excelAutoKNFO.js:517-597`): large-job barrier, phase-driven rescan,
capacity computation, batch pick and dispatch.  `fresh` gives the
`scanCtx` result per context and `outcomes` the worker outcome per job
key.  Returns the new state and the batch that was dispatched this tick. -/
def tickBody (ctxs : List String) (fresh : String → List Job)
    (outcomes : String → JobOutcome) (st : SchedState) : SchedState × List Pick :=
  if anyLargeFlag st.flags then (st, [])
  else
    let st1 :=
      if queuesEmpty st.queues && st.inFlight.isEmpty then
        match st.phase with
        | .IDLE =>
          { st with queues := scanAll ctxs fresh st.inFlight st.queues, phase := .BOOTED }
        | .BOOTED =>
          { st with queues := scanAll ctxs fresh st.inFlight st.queues, phase := .RESCANNED }
        | .RESCANNED => { st with phase := .IDLE }
      else st
    let avail := PARALLEL_LIMIT - st1.inFlight.length
    if avail = 0 then (st1, [])
    else
      let bq := pickBatch ctxs st1.queues avail
      if bq.1.isEmpty then ({ st1 with queues := bq.2 }, [])
      else (processBatch { st1 with queues := bq.2 } bq.1 outcomes, bq.1)

/-- `tick()` (`excelAutoKNFO.js:511-605`): the re-entrancy guard returns
immediately when `ticking` is set; otherwise the flag is raised, the body
runs, and the `finally` clears the flag.  The body is a parameter so that a
body that throws midway is covered as well: the `catch` at
`excelAutoKNFO.js:598` only logs, so a throwing body is the function
returning the state reached at the throw point. -/
def tickRun (body : SchedState → SchedState × List Pick) (st : SchedState) :
    SchedState × List Pick :=
  if st.ticking then (st, [])
  else
    let r := body { st with ticking := true }
    ({ r.1 with ticking := false }, r.2)

instance : IsTotal Job sizeDesc := ⟨fun a b => Nat.le_total b.sizeMB a.sizeMB⟩

instance : IsTrans Job sizeDesc := ⟨fun _ _ _ hab hbc => Nat.le_trans hbc hab⟩

/-! # Theorems -/

/-! ## Shared helper lemmas -/

theorem idleSweep_length (now : Nat) (pool : List Entry) :
    (idleSweep now pool).length = pool.length := List.length_map _ _

theorem alookup_aset_self {β : Type} (m : List (String × β)) (k : String) (v : β) :
    alookup (aset m k v) k = some v := by
  induction m with
  | nil => simp [aset, alookup]
  | cons kv rest ih =>
    by_cases h : kv.1 = k
    · simp [aset, alookup, h]
    · simp [aset, alookup, h, ih]

theorem alookup_aset_ne {β : Type} (m : List (String × β)) (k k' : String) (v : β)
    (h : k' ≠ k) : alookup (aset m k v) k' = alookup m k' := by
  induction m with
  | nil => simp [aset, alookup, Ne.symm h]
  | cons kv rest ih =>
    by_cases h0 : kv.1 = k
    · subst h0
      simp [aset, alookup, Ne.symm h, h]
    · by_cases h1 : kv.1 = k'
      · simp [aset, alookup, h0, h1, h]
      · simp [aset, alookup, h0, h1, ih]

theorem alookup_adel_self {β : Type} (m : List (String × β)) (k : String) :
    alookup (adel m k) k = none := by
  induction m with
  | nil => simp [adel, alookup]
  | cons kv rest ih =>
    by_cases h : kv.1 = k
    · simpa [adel, List.filter, h] using ih
    · simpa [adel, List.filter, h, alookup] using ih

theorem mem_sAdd_self (s : List String) (k : String) : k ∈ sAdd s k := by
  unfold sAdd
  split
  · assumption
  · simp

theorem qGet_aset_self (qs : Queues) (c : String) (q : List Job) :
    qGet (aset qs c q) c = q := by
  simp [qGet, alookup_aset_self]

theorem qGet_aset_ne (qs : Queues) (c c' : String) (q : List Job) (h : c' ≠ c) :
    qGet (aset qs c q) c' = qGet qs c' := by
  simp [qGet, alookup_aset_ne _ _ _ _ h]

theorem fails_applyFailures (ts : List Nat) (s : PoolState) :
    (applyFailures ts s).fails = s.fails + ts.length := by
  induction ts generalizing s with
  | nil => simp [applyFailures]
  | cons t ts ih =>
    show (applyFailures ts (failure t s)).fails = s.fails + (ts.length + 1)
    rw [ih]
    simp [failure]
    omega

/-! ## C1 — acquire -/

/-- C1 counterexample.  With the pool at `MAX_CONN` entries, all of them
currently leased (`busy = true`), `acquire` hands out the round-robin entry
anyway: the entry it returns was already busy (not free) at the moment of
selection, so the claim "every call returns an entry that is … free (not
currently leased)" is false on this input.  (The "reuses rather than
creates" half does hold: the pool stays at 10 entries.) -/
theorem C1_acquire_counterexample :
    (let s : PoolState :=
      { pool := List.replicate 10 { busy := true, ok := true, lastUse := 0 },
        next := 0, lastHS := 0, fails := 0, breakerUntil := 0 }
     (s.pool.getD (acquire 0 s).1 default).busy = true ∧
       (acquire 0 s).2.pool.length = 10) := by decide

/-- C1 (amended): `acquire` returns an entry that is healthy and marked busy
after the call; a new entry is created exactly when the pool holds fewer
than `MAX_CONN` entries (in particular when it holds none); otherwise an
existing entry is reused round-robin — without checking its `busy` flag, so
the reused entry may already be leased. -/
theorem C1_acquire_amended (now : Nat) (s : PoolState) :
    ((acquire now s).2.pool.getD (acquire now s).1 default).busy = true ∧
    ((acquire now s).2.pool.getD (acquire now s).1 default).ok = true ∧
    ((acquire now s).2.pool.length
      = if s.pool.length < MAX_CONN then s.pool.length + 1 else s.pool.length) ∧
    (MAX_CONN ≤ s.pool.length →
      (acquire now s).1 = s.next % s.pool.length ∧
      (acquire now s).2.pool.length = s.pool.length) := by
  have hlen : (idleSweep now s.pool).length = s.pool.length := idleSweep_length now s.pool
  simp only [acquire]
  by_cases h : (idleSweep now s.pool).length = 0 ∨ (idleSweep now s.pool).length < MAX_CONN
  · rw [if_pos h]
    have hsmall : s.pool.length < MAX_CONN := by
      rcases h with h | h
      · rw [hlen] at h; rw [h]; decide
      · omega
    refine ⟨?_, ?_, ?_, fun hbig => absurd hsmall (by omega)⟩
    · simp [List.getD]
    · simp [List.getD]
    · simp [hlen, if_pos hsmall]
  · rw [if_neg h]
    push_neg at h
    have hpos : 0 < (idleSweep now s.pool).length := Nat.pos_of_ne_zero h.1
    have hi : s.next % (idleSweep now s.pool).length < (idleSweep now s.pool).length :=
      Nat.mod_lt _ hpos
    refine ⟨?_, ?_, ?_, ?_⟩
    · simp [List.getD, List.getElem?_set, hi]
    · simp [List.getD, List.getElem?_set, hi]
    · simp [hlen, if_neg (show ¬ s.pool.length < MAX_CONN by omega)]
    · intro _
      refine ⟨by rw [hlen], by simp [hlen]⟩

/-- Witness for C1 (amended) at a pool of `MAX_CONN` busy entries. -/
theorem C1_acquire_amended_witness :
    (let s : PoolState :=
      { pool := List.replicate 10 { busy := true, ok := true, lastUse := 0 },
        next := 3, lastHS := 0, fails := 0, breakerUntil := 0 }
     (acquire 0 s).1 = s.next % s.pool.length ∧
       (acquire 0 s).2.pool.length = s.pool.length) :=
  (C1_acquire_amended 0 _).2.2.2 (by decide)

/-! ## C2 — release of the busy flag -/

/-- C2: the claim that the leased entry's `busy` flag is cleared on *every*
completion path fails in the code.  On the retry path
(`sftpPool.js:148-153`) the `catch` block ends with `await this.#ready(entry)`;
when that reconnection itself throws (all `LOCAL_RETRIES` connect attempts
fail), the exception propagates out of `op()` without any `#release` call
and the entry stays busy forever — `releases = 0` below.  By contrast the
retry-exhaustion path does release exactly once (`releases = 1`). -/
theorem C2_busy_leak :
    runProxyOp [.fail "ECONNRESET" false]
      = { result := .connectFailed, releases := 0, reconnects := 0 } ∧
    runProxyOp [.fail "ECONNRESET" true, .fail "ECONNRESET" true, .fail "ECONNRESET" true]
      = { result := .raised "ECONNRESET", releases := 1, reconnects := 2 } := by decide

/-! ## C3 — breaker discipline -/

/-- C3: (1) starting from a closed breaker, the `k`-th consecutive refusal
(at time `t`) leaves `fails = k` and opens the breaker until
`t + BREAKER_BASE_MS * 2 ^ min (k-1) 5`; (2) that open duration is
non-decreasing in `k`; (3) every connect attempt's handshake starts no
earlier than `breakerUntil`; (4) one successful handshake resets `fails`
to 0 and closes the breaker (and marks the entry ok). -/
theorem C3_breaker_discipline :
    (∀ (ts : List Nat) (t : Nat) (s : PoolState), s.fails = 0 →
      (applyFailures (ts ++ [t]) s).fails = ts.length + 1 ∧
      (applyFailures (ts ++ [t]) s).breakerUntil
        = t + BREAKER_BASE_MS * 2 ^ min ((ts.length + 1) - 1) 5) ∧
    (∀ k k' : Nat, k ≤ k' →
      BREAKER_BASE_MS * 2 ^ min (k - 1) 5 ≤ BREAKER_BASE_MS * 2 ^ min (k' - 1) 5) ∧
    (∀ (now : Nat) (s : PoolState), s.breakerUntil ≤ handshakeTime now s) ∧
    (∀ (now : Nat) (s : PoolState) (e : Entry),
      ((connectOk now s e).2.1).fails = 0 ∧ ((connectOk now s e).2.1).breakerUntil = 0 ∧
      ((connectOk now s e).2.2).ok = true) := by
  refine ⟨?_, ?_, ?_, ?_⟩
  · intro ts t s hs
    have hmid : (applyFailures ts s).fails = ts.length := by
      rw [fails_applyFailures, hs, Nat.zero_add]
    have hsplit : applyFailures (ts ++ [t]) s = failure t (applyFailures ts s) := by
      simp [applyFailures, List.foldl_append]
    rw [hsplit]
    constructor
    · simp [failure, hmid]
    · simp [failure, hmid]
  · intro k k' h
    exact Nat.mul_le_mul_left _
      (Nat.pow_le_pow_right (by decide)
        (min_le_min (Nat.sub_le_sub_right h 1) (Nat.le_refl 5)))
  · intro now s
    have hm : s.breakerUntil ≤ max now s.breakerUntil := le_max_right _ _
    simp only [handshakeTime]
    split <;> omega
  · intro now s e
    exact ⟨rfl, rfl, rfl⟩

/-- Witness for C3: three consecutive refusals at times 5, 10, 20 from a
clean state leave `fails = 3` and the breaker open until
`20 + BREAKER_BASE_MS * 2 ^ 2`; the duration for `k = 1` is at most the one
for `k = 3`; a connect from a state with the breaker open until 90 starts
its handshake no earlier than 90; connecting resets the breaker. -/
theorem C3_breaker_discipline_witness :
    ((applyFailures ([5, 10] ++ [20])
        { pool := [], next := 0, lastHS := 0, fails := 0, breakerUntil := 0 }).fails = 3 ∧
      (applyFailures ([5, 10] ++ [20])
        { pool := [], next := 0, lastHS := 0, fails := 0, breakerUntil := 0 }).breakerUntil
        = 20 + BREAKER_BASE_MS * 2 ^ min 2 5) ∧
    BREAKER_BASE_MS * 2 ^ min (1 - 1) 5 ≤ BREAKER_BASE_MS * 2 ^ min (3 - 1) 5 ∧
    (90 : Nat) ≤ handshakeTime 0
      { pool := [], next := 0, lastHS := 0, fails := 2, breakerUntil := 90 } ∧
    ((connectOk 0 { pool := [], next := 0, lastHS := 0, fails := 2, breakerUntil := 90 }
        default).2.1).fails = 0 :=
  ⟨C3_breaker_discipline.1 [5, 10] 20
     { pool := [], next := 0, lastHS := 0, fails := 0, breakerUntil := 0 } rfl,
   C3_breaker_discipline.2.1 1 3 (by decide),
   C3_breaker_discipline.2.2.1 0
     { pool := [], next := 0, lastHS := 0, fails := 2, breakerUntil := 90 },
   (C3_breaker_discipline.2.2.2 0
     { pool := [], next := 0, lastHS := 0, fails := 2, breakerUntil := 90 } default).1⟩

/-! ## Batch-picking lemmas -/

theorem pickLargeLoop_spec (ctxs : List String) (qs : Queues) (p : Pick) (qs' : Queues)
    (h : pickLargeLoop ctxs qs = some (p, qs')) :
    p.large = true ∧ ∃ it q', qGet qs p.ctx = it :: q' ∧ TH_MB ≤ it.sizeMB ∧
      p.file = it.name ∧ qs' = aset qs p.ctx q' := by
  induction ctxs with
  | nil => simp [pickLargeLoop] at h
  | cons c rest ih =>
    simp only [pickLargeLoop] at h
    split at h
    · exact ih h
    · rename_i it q' hq
      split at h
      · rename_i hth
        cases h
        exact ⟨rfl, it, q', hq, hth, rfl, rfl⟩
      · exact ih h

theorem pickLargeLoop_none (ctxs : List String) (qs : Queues)
    (h : pickLargeLoop ctxs qs = none) :
    ∀ c ∈ ctxs, ∀ it q', qGet qs c = it :: q' → it.sizeMB < TH_MB := by
  induction ctxs with
  | nil => intro c hc; cases hc
  | cons c0 rest ih =>
    intro c hc it q' hq
    simp only [pickLargeLoop] at h
    split at h
    · rename_i hnil
      rcases List.mem_cons.mp hc with h0 | h0
      · subst h0; rw [hnil] at hq; cases hq
      · exact ih h c h0 it q' hq
    · rename_i it0 q0 hq0
      split at h
      · cases h
      · rename_i hth0
        rcases List.mem_cons.mp hc with h0 | h0
        · subst h0
          rw [hq0] at hq
          cases hq
          omega
        · exact ih h c h0 it q' hq

/-! ## C4 — large-job exclusivity -/

/-- C4: (1) whenever the exclusive scan of `pickBatch` selects a job, the
batch is exactly that single job, which was the at-or-above-threshold head
of its own source's queue; it is dequeued and every other source's queue is
left untouched; (2) whenever some source's head is at or above `TH_MB`, the
batch *is* such a singleton; (3) while any in-flight job is flagged large,
the tick dispatches nothing and changes nothing; (4) the spec's concrete
scenario: with queue `[100MB, 2MB, 3MB]`, threshold 20 and capacity
`PARALLEL_LIMIT = 5`, only the 100MB job dispatches; a tick during its
flight dispatches nothing; after it completes the 2MB and 3MB jobs dispatch
together in one batch. -/
theorem C4_large_exclusivity :
    (∀ (ctxs : List String) (qs : Queues) (max : Nat) (p : Pick) (qs' : Queues),
      pickLargeLoop ctxs qs = some (p, qs') →
      pickBatch ctxs qs max = ([p], qs') ∧ p.large = true ∧
      ∃ it q', qGet qs p.ctx = it :: q' ∧ TH_MB ≤ it.sizeMB ∧ p.file = it.name ∧
        qGet qs' p.ctx = q' ∧ ∀ c', c' ≠ p.ctx → qGet qs' c' = qGet qs c') ∧
    (∀ (ctxs : List String) (qs : Queues) (max : Nat) (c : String) (it : Job) (q' : List Job),
      c ∈ ctxs → qGet qs c = it :: q' → TH_MB ≤ it.sizeMB →
      ∃ p qs', pickBatch ctxs qs max = ([p], qs')) ∧
    (∀ (ctxs : List String) (fresh : String → List Job) (outcomes : String → JobOutcome)
      (st : SchedState), anyLargeFlag st.flags = true →
      tickBody ctxs fresh outcomes st = (st, [])) ∧
    ((tickBody ["CAN"] (fun _ => []) (fun _ => .ok)
        { queues := [("CAN", [⟨"f100", 100⟩, ⟨"f2", 2⟩, ⟨"f3", 3⟩])], inFlight := [],
          processedOK := [], flags := [], failedFiles := [], phase := .BOOTED,
          ticking := false }).2
      = [{ ctx := "CAN", file := "f100", large := true }] ∧
     (let stMid : SchedState :=
        { queues := [("CAN", [⟨"f2", 2⟩, ⟨"f3", 3⟩])], inFlight := ["CAN:f100"],
          processedOK := [], flags := [("CAN:f100", true)], failedFiles := [],
          phase := .BOOTED, ticking := false }
      tickBody ["CAN"] (fun _ => []) (fun _ => .ok) stMid = (stMid, [])) ∧
     (tickBody ["CAN"] (fun _ => []) (fun _ => .ok)
        { queues := [("CAN", [⟨"f2", 2⟩, ⟨"f3", 3⟩])], inFlight := [],
          processedOK := ["CAN:f100"], flags := [], failedFiles := [],
          phase := .BOOTED, ticking := false }).2
      = [{ ctx := "CAN", file := "f2", large := false },
         { ctx := "CAN", file := "f3", large := false }]) := by
  refine ⟨?_, ?_, ?_, by decide, by decide, by decide⟩
  · intro ctxs qs max p qs' h
    obtain ⟨hlarge, it, q', hq, hth, hfile, hqs'⟩ := pickLargeLoop_spec ctxs qs p qs' h
    subst hqs'
    refine ⟨by simp [pickBatch, h], hlarge, it, q', hq, hth, hfile,
      qGet_aset_self qs p.ctx q', fun c' hc' => qGet_aset_ne qs p.ctx c' q' hc'⟩
  · intro ctxs qs max c it q' hc hq hth
    cases hpl : pickLargeLoop ctxs qs with
    | none => exact absurd (pickLargeLoop_none ctxs qs hpl c hc it q' hq) (by omega)
    | some pq => exact ⟨pq.1, pq.2, by simp [pickBatch, hpl]⟩
  · intro ctxs fresh outcomes st h
    simp [tickBody, h]

/-- Witness for C4 at the spec's scenario queue: the exclusive scan finds
the 100MB head, and `pickBatch` returns it alone with the queue shifted. -/
theorem C4_large_exclusivity_witness :
    pickBatch ["CAN"] [("CAN", [⟨"f100", 100⟩, ⟨"f2", 2⟩, ⟨"f3", 3⟩])] 5
      = ([{ ctx := "CAN", file := "f100", large := true }],
         aset [("CAN", [⟨"f100", 100⟩, ⟨"f2", 2⟩, ⟨"f3", 3⟩])] "CAN" [⟨"f2", 2⟩, ⟨"f3", 3⟩]) :=
  (C4_large_exclusivity.1 ["CAN"] [("CAN", [⟨"f100", 100⟩, ⟨"f2", 2⟩, ⟨"f3", 3⟩])] 5
    { ctx := "CAN", file := "f100", large := true }
    (aset [("CAN", [⟨"f100", 100⟩, ⟨"f2", 2⟩, ⟨"f3", 3⟩])] "CAN" [⟨"f2", 2⟩, ⟨"f3", 3⟩])
    (by decide)).1

/-! ## C6 — transient retry -/

/-- C6: (1) an operation whose first `OP_RETRIES = 2` attempts fail with
transient errors and whose reconnections succeed returns the final
attempt's success value, the busy flag is cleared exactly once, and the
entry was invalidated and re-established before each of the two retries;
(2) a non-transient error on the first attempt is re-raised at once (one
release, no reconnection); (3) when all `OP_RETRIES + 1` attempts fail
(the first two transiently), the *last* error is re-raised. -/
theorem C6_transient_retry :
    (∀ (m1 m2 : String) (v : Nat), transient m1 = true → transient m2 = true →
      runProxyOp [.fail m1 true, .fail m2 true, .ok v]
        = { result := .success v, releases := 1, reconnects := 2 }) ∧
    (∀ (m : String) (b : Bool) (rest : List IterOutcome), transient m = false →
      runProxyOp (.fail m b :: rest)
        = { result := .raised m, releases := 1, reconnects := 0 }) ∧
    (∀ (m1 m2 m3 : String) (b3 : Bool), transient m1 = true → transient m2 = true →
      runProxyOp [.fail m1 true, .fail m2 true, .fail m3 b3]
        = { result := .raised m3, releases := 1, reconnects := 2 }) := by
  refine ⟨?_, ?_, ?_⟩
  · intro m1 m2 v h1 h2
    simp [runProxyOp, opLoop, OP_RETRIES, h1, h2]
  · intro m b rest h
    simp [runProxyOp, opLoop, h]
  · intro m1 m2 m3 b3 h1 h2
    simp [runProxyOp, opLoop, OP_RETRIES, h1, h2]

/-- Witness for C6: two transient `ECONNRESET`-style failures followed by a
success yield the success value with one release and two reconnections. -/
theorem C6_transient_retry_witness :
    runProxyOp [.fail "read ECONNRESET" true, .fail "socket hang up" true, .ok 42]
      = { result := .success 42, releases := 1, reconnects := 2 } :=
  C6_transient_retry.1 "read ECONNRESET" "socket hang up" 42 (by decide) (by decide)

/-! ## C5 — quarantine -/

/-- Helper: the quarantine guard (`excelAutoKNFO.js:461-466`).  A job whose
recorded failure count has reached `MAX_FAILURES` is skipped: the worker
does not run, the key is marked processed, and the failure record is left
as it is. -/
theorem processJob_guard (st : SchedState) (p : Pick) (o : JobOutcome)
    (h : MAX_FAILURES ≤ fcGet st.failedFiles (keyOf p.ctx p.file)) :
    (processJob st p o).2 = false ∧
    keyOf p.ctx p.file ∈ (processJob st p o).1.processedOK ∧
    (processJob st p o).1.failedFiles = st.failedFiles := by
  simp only [processJob]
  rw [if_pos h]
  exact ⟨rfl, mem_sAdd_self _ _, rfl⟩

/-- C5: (1) a dispatch of a job whose consecutive-failure count has reached
`MAX_FAILURES` never runs its work, marks the job processed (quarantine),
and leaves the count in place; (2) hence over any further sequence of
dispatches, with any outcomes, the work never runs again; (3) a success
below the threshold marks the job processed and clears its failure
counter; (4) any failure below the threshold — timeout or not — increments
the counter by exactly one; (5) when the failure that reaches the
threshold is a timeout, the job is marked processed immediately. -/
theorem C5_quarantine :
    (∀ (st : SchedState) (p : Pick) (o : JobOutcome),
      MAX_FAILURES ≤ fcGet st.failedFiles (keyOf p.ctx p.file) →
      (processJob st p o).2 = false ∧
      keyOf p.ctx p.file ∈ (processJob st p o).1.processedOK) ∧
    (∀ (st : SchedState) (p : Pick) (os : List JobOutcome),
      MAX_FAILURES ≤ fcGet st.failedFiles (keyOf p.ctx p.file) →
      ∀ b ∈ (runJobs st p os).1, b = false) ∧
    (∀ (st : SchedState) (p : Pick),
      fcGet st.failedFiles (keyOf p.ctx p.file) < MAX_FAILURES →
      keyOf p.ctx p.file ∈ (processJob st p JobOutcome.ok).1.processedOK ∧
      fcGet (processJob st p JobOutcome.ok).1.failedFiles (keyOf p.ctx p.file) = 0) ∧
    (∀ (st : SchedState) (p : Pick) (m : String),
      fcGet st.failedFiles (keyOf p.ctx p.file) < MAX_FAILURES →
      fcGet (processJob st p (JobOutcome.err m)).1.failedFiles (keyOf p.ctx p.file)
        = fcGet st.failedFiles (keyOf p.ctx p.file) + 1) ∧
    (∀ (st : SchedState) (p : Pick) (m : String),
      fcGet st.failedFiles (keyOf p.ctx p.file) < MAX_FAILURES →
      MAX_FAILURES ≤ fcGet st.failedFiles (keyOf p.ctx p.file) + 1 →
      strIncludes m "TIMEOUT" = true →
      keyOf p.ctx p.file ∈ (processJob st p (JobOutcome.err m)).1.processedOK) := by
  refine ⟨?_, ?_, ?_, ?_, ?_⟩
  · intro st p o h
    exact ⟨(processJob_guard st p o h).1, (processJob_guard st p o h).2.1⟩
  · intro st p os h
    induction os generalizing st with
    | nil => intro b hb; cases hb
    | cons o os ih =>
      intro b hb
      simp only [runJobs] at hb
      rcases List.mem_cons.mp hb with hb | hb
      · rw [hb]
        exact (processJob_guard st p o h).1
      · exact ih (processJob st p o).1
          (by rw [(processJob_guard st p o h).2.2]; exact h) b hb
  · intro st p h
    simp only [processJob]
    rw [if_neg (by omega)]
    exact ⟨mem_sAdd_self _ _, by simp [fcGet, alookup_adel_self]⟩
  · intro st p m h
    simp only [processJob]
    rw [if_neg (by omega)]
    split
    · simp [fcGet, alookup_aset_self]
    · simp [fcGet, alookup_aset_self]
  · intro st p m h hge ht
    simp only [processJob]
    rw [if_neg (by omega)]
    rw [if_pos (show (strIncludes m "TIMEOUT"
        && decide (MAX_FAILURES ≤ fcGet st.failedFiles (keyOf p.ctx p.file) + 1)) = true
      by rw [ht, decide_eq_true hge]; rfl)]
    exact mem_sAdd_self _ _

/-- Witness for C5: from a clean state, dispatching job `CAN:f` with three
plain failures and then once more shows the worker running exactly three
times and never again; in the quarantined state the key is marked
processed; one success from a clean state clears the counter; the
threshold-reaching timeout marks the job processed at once. -/
theorem C5_quarantine_witness :
    (let p : Pick := { ctx := "CAN", file := "f", large := false }
     let stq : SchedState :=
       { queues := [], inFlight := [], processedOK := [], flags := [],
         failedFiles := [("CAN:f", 3)], phase := .IDLE, ticking := false }
     ((processJob stq p JobOutcome.ok).2 = false ∧
       keyOf "CAN" "f" ∈ (processJob stq p JobOutcome.ok).1.processedOK) ∧
     (∀ b ∈ (runJobs stq p [JobOutcome.ok, JobOutcome.err "boom"]).1, b = false)) ∧
    (let p : Pick := { ctx := "CAN", file := "f", large := false }
     let st0 : SchedState :=
       { queues := [], inFlight := [], processedOK := [], flags := [],
         failedFiles := [], phase := .IDLE, ticking := false }
     (keyOf "CAN" "f" ∈ (processJob st0 p JobOutcome.ok).1.processedOK ∧
       fcGet (processJob st0 p JobOutcome.ok).1.failedFiles (keyOf "CAN" "f") = 0) ∧
     fcGet (processJob st0 p (JobOutcome.err "boom")).1.failedFiles (keyOf "CAN" "f")
       = fcGet st0.failedFiles (keyOf "CAN" "f") + 1) ∧
    (let p : Pick := { ctx := "CAN", file := "f", large := false }
     let st2 : SchedState :=
       { queues := [], inFlight := [], processedOK := [], flags := [],
         failedFiles := [("CAN:f", 2)], phase := .IDLE, ticking := false }
     keyOf "CAN" "f" ∈
       (processJob st2 p (JobOutcome.err "TIMEOUT runWorker (600000ms)")).1.processedOK) :=
  ⟨⟨C5_quarantine.1
      { queues := [], inFlight := [], processedOK := [], flags := [],
        failedFiles := [("CAN:f", 3)], phase := .IDLE, ticking := false }
      { ctx := "CAN", file := "f", large := false } JobOutcome.ok (by decide),
    C5_quarantine.2.1
      { queues := [], inFlight := [], processedOK := [], flags := [],
        failedFiles := [("CAN:f", 3)], phase := .IDLE, ticking := false }
      { ctx := "CAN", file := "f", large := false }
      [JobOutcome.ok, JobOutcome.err "boom"] (by decide)⟩,
   ⟨C5_quarantine.2.2.1
      { queues := [], inFlight := [], processedOK := [], flags := [],
        failedFiles := [], phase := .IDLE, ticking := false }
      { ctx := "CAN", file := "f", large := false } (by decide),
    C5_quarantine.2.2.2.1
      { queues := [], inFlight := [], processedOK := [], flags := [],
        failedFiles := [], phase := .IDLE, ticking := false }
      { ctx := "CAN", file := "f", large := false } "boom" (by decide)⟩,
   C5_quarantine.2.2.2.2
     { queues := [], inFlight := [], processedOK := [], flags := [],
       failedFiles := [("CAN:f", 2)], phase := .IDLE, ticking := false }
     { ctx := "CAN", file := "f", large := false } "TIMEOUT runWorker (600000ms)"
     (by decide) (by decide) (by decide)⟩

/-! ## C7 — small-job picking order -/

/-- C7 counterexample.  Two sources, each with small (1MB) queue heads,
capacity 2: the batch takes *both* picks from source `A`, exhausting its
small run, even though source `B`'s head is a small pending job — so small
jobs are not selected by round-robin alternation across sources ("each
source in turn"); alternation would have produced `[A:a1, B:b1]`. -/
theorem C7_roundrobin_counterexample :
    (pickBatch ["A", "B"] [("A", [⟨"a1", 1⟩, ⟨"a2", 1⟩]), ("B", [⟨"b1", 1⟩])] 2).1
      = [{ ctx := "A", file := "a1", large := false },
         { ctx := "A", file := "a2", large := false }] ∧
    qGet [("A", [⟨"a1", 1⟩, ⟨"a2", 1⟩]), ("B", [⟨"b1", 1⟩])] "B" = [⟨"b1", 1⟩] ∧
    (1 : Nat) < TH_MB := by decide

theorem pickSmallCtx_run (max : Nat) (c : String) :
    ∀ (q : List Job) (picks : List Pick), picks.length ≤ max →
    pickSmallCtx max picks c q
      = (picks ++
          (((q.takeWhile (fun j => ! decide (TH_MB ≤ j.sizeMB))).take (max - picks.length)).map
            (fun j => { ctx := c, file := j.name, large := false })),
         q.drop (((q.takeWhile (fun j => ! decide (TH_MB ≤ j.sizeMB))).take
            (max - picks.length)).length)) := by
  intro q
  induction q with
  | nil => intro picks h; simp [pickSmallCtx]
  | cons it q ih =>
    intro picks h
    by_cases hlt : picks.length < max
    · by_cases hth : TH_MB ≤ it.sizeMB
      · simp [pickSmallCtx, hlt, hth, List.takeWhile_cons]
      · have hstep :
            pickSmallCtx max picks c (it :: q)
              = pickSmallCtx max (picks ++ [{ ctx := c, file := it.name, large := false }]) c q := by
          simp [pickSmallCtx, hlt, hth]
        rw [hstep, ih _ (by simp; omega)]
        have htw : (it :: q).takeWhile (fun j => ! decide (TH_MB ≤ j.sizeMB))
            = it :: q.takeWhile (fun j => ! decide (TH_MB ≤ j.sizeMB)) := by
          simp [List.takeWhile_cons, hth]
        have hmax : max - picks.length = (max - (picks.length + 1)) + 1 := by omega
        rw [htw, hmax, List.take_succ_cons]
        simp [List.append_assoc]
    · have hz : max - picks.length = 0 := by omega
      have hEq : picks.length = max := by omega
      simp [pickSmallCtx, hEq, hz]

theorem seqGreedy_zero (ctxs : List String) : ∀ qs : Queues, seqGreedyPicks 0 ctxs qs = [] := by
  induction ctxs with
  | nil => intro qs; rfl
  | cons c rest ih => intro qs; simp [seqGreedyPicks, ih]

theorem seqGreedy_small (max : Nat) (ctxs : List String) :
    ∀ (qs : Queues) (p : Pick), p ∈ seqGreedyPicks max ctxs qs → p.large = false := by
  induction ctxs generalizing max with
  | nil => intro qs p hp; cases hp
  | cons c rest ih =>
    intro qs p hp
    simp only [seqGreedyPicks] at hp
    rcases List.mem_append.mp hp with hp | hp
    · obtain ⟨j, _, hj⟩ := List.mem_map.mp hp
      rw [← hj]
    · exact ih _ _ p hp

theorem pickSmallLoop_eq :
    ∀ (ctxs : List String) (qs : Queues) (picks : List Pick) (max : Nat),
    picks.length ≤ max →
    (pickSmallLoop max ctxs qs picks).1 = picks ++ seqGreedyPicks (max - picks.length) ctxs qs := by
  intro ctxs
  induction ctxs with
  | nil => intro qs picks max h; simp [pickSmallLoop, seqGreedyPicks]
  | cons c rest ih =>
    intro qs picks max h
    simp only [pickSmallLoop]
    rw [pickSmallCtx_run max c (qGet qs c) picks h]
    simp only [seqGreedyPicks]
    have htklen :
        (((qGet qs c).takeWhile (fun j => ! decide (TH_MB ≤ j.sizeMB))).take
          (max - picks.length)).length ≤ max - picks.length := by
      rw [List.length_take]
      omega
    by_cases hm :
        (picks ++
          ((((qGet qs c).takeWhile (fun j => ! decide (TH_MB ≤ j.sizeMB))).take
            (max - picks.length)).map
              (fun j => ({ ctx := c, file := j.name, large := false } : Pick)))).length = max
    · rw [if_pos hm]
      rw [List.length_append, List.length_map] at hm
      have hzero :
          (max - picks.length) -
            (((qGet qs c).takeWhile (fun j => ! decide (TH_MB ≤ j.sizeMB))).take
              (max - picks.length)).length = 0 := by omega
      rw [hzero, seqGreedy_zero, List.append_nil]
    · rw [if_neg hm]
      rw [List.length_append, List.length_map] at hm
      have h' :
          (picks ++
            ((((qGet qs c).takeWhile (fun j => ! decide (TH_MB ≤ j.sizeMB))).take
              (max - picks.length)).map
                (fun j => ({ ctx := c, file := j.name, large := false } : Pick)))).length ≤ max := by
        rw [List.length_append, List.length_map]
        omega
      rw [ih _ _ _ h']
      rw [List.length_append, List.length_map, List.append_assoc]
      have harith :
          max - (picks.length +
            (((qGet qs c).takeWhile (fun j => ! decide (TH_MB ≤ j.sizeMB))).take
              (max - picks.length)).length)
          = (max - picks.length) -
            (((qGet qs c).takeWhile (fun j => ! decide (TH_MB ≤ j.sizeMB))).take
              (max - picks.length)).length := by omega
      rw [harith]

/-- C7 (amended): when no source's queue head is at or above the large
threshold, `pickBatch` selects small jobs *sequentially per source in
source order* — from each source it takes the longest run of
below-threshold head jobs that fits the remaining capacity before moving
to the next source (`seqGreedyPicks`), rather than alternating round-robin
across sources; every pick is flagged small. -/
theorem C7_sequential_greedy (ctxs : List String) (qs : Queues) (max : Nat)
    (h : pickLargeLoop ctxs qs = none) :
    (pickBatch ctxs qs max).1 = seqGreedyPicks max ctxs qs ∧
    ∀ p ∈ (pickBatch ctxs qs max).1, p.large = false := by
  have h1 : (pickBatch ctxs qs max).1 = seqGreedyPicks max ctxs qs := by
    simp only [pickBatch, h]
    have he := pickSmallLoop_eq ctxs qs [] max (by simp)
    simpa using he
  exact ⟨h1, fun p hp => seqGreedy_small max ctxs qs p (h1 ▸ hp)⟩

/-- Witness for C7 (amended) at the counterexample queues. -/
theorem C7_sequential_greedy_witness :
    (pickBatch ["A", "B"] [("A", [⟨"a1", 1⟩, ⟨"a2", 1⟩]), ("B", [⟨"b1", 1⟩])] 2).1
      = seqGreedyPicks 2 ["A", "B"] [("A", [⟨"a1", 1⟩, ⟨"a2", 1⟩]), ("B", [⟨"b1", 1⟩])] :=
  (C7_sequential_greedy ["A", "B"] [("A", [⟨"a1", 1⟩, ⟨"a2", 1⟩]), ("B", [⟨"b1", 1⟩])] 2
    (by decide)).1

/-! ## C8 — queue rebuild on scan -/

/-- C8 counterexample.  Source `A` has a job in flight (`keyOf "A" "f"`)
while source `B` has none; the fresh scan of `B` found a new job.  The
claim predicts `B`'s queue is rebuilt to the fresh scan; in the code the
`inFlight.size === 0` check is global, so *no* queue is rebuilt and `B`
keeps its stale queue. -/
theorem C8_perSource_counterexample :
    scanAll ["A", "B"] (fun c => if c = "B" then [⟨"new", 2⟩] else [])
        [keyOf "A" "f"] [("A", []), ("B", [⟨"old", 1⟩])]
      = [("A", []), ("B", [⟨"old", 1⟩])] ∧
    qGet (scanAll ["A", "B"] (fun c => if c = "B" then [⟨"new", 2⟩] else [])
        [keyOf "A" "f"] [("A", []), ("B", [⟨"old", 1⟩])]) "B" ≠ [⟨"new", 2⟩] := by decide

/-- C8 (amended): the rebuild decision is global, not per source — (1) when
no job of *any* source is in flight, every source's queue is replaced by
its fresh scan result; (2) when any job at all is in flight, every source's
queue (also those of sources with nothing in flight) is left unchanged;
(3) each `scanCtx` result is sorted descending by size. -/
theorem C8_global_rebuild :
    (∀ (ctxs : List String) (fresh : String → List Job) (qs : Queues),
      scanAll ctxs fresh [] qs = ctxs.map (fun c => (c, fresh c))) ∧
    (∀ (ctxs : List String) (fresh : String → List Job) (infl : List String) (qs : Queues),
      infl ≠ [] → scanAll ctxs fresh infl qs = qs) ∧
    (∀ (ctx : String) (xls : List RemoteFile) (kn mt : List (List Char)) (proc : List String),
      (scanCtx ctx xls kn mt proc).Sorted sizeDesc) := by
  refine ⟨?_, ?_, ?_⟩
  · intro ctxs fresh qs
    simp [scanAll]
  · intro ctxs fresh infl qs h
    cases infl with
    | nil => exact absurd rfl h
    | cons k ks => simp [scanAll]
  · intro ctx xls kn mt proc
    exact List.sorted_insertionSort sizeDesc _

/-- Witness for C8 (amended): with nothing in flight the single queue is
rebuilt from the fresh scan; with one in-flight job it is left unchanged;
a concrete `scanCtx` result is sorted. -/
theorem C8_global_rebuild_witness :
    scanAll ["A"] (fun _ => [⟨"x", 30⟩, ⟨"y", 1⟩]) [] [("A", [⟨"z", 7⟩])]
      = [("A", [⟨"x", 30⟩, ⟨"y", 1⟩])] ∧
    scanAll ["A"] (fun _ => [⟨"x", 30⟩, ⟨"y", 1⟩]) ["A:f"] [("A", [⟨"z", 7⟩])]
      = [("A", [⟨"z", 7⟩])] ∧
    (scanCtx "CAN" [{ name := "MB51$a.xlsx", ftype := "-", size := 2097152 }] [] [] []).Sorted
      sizeDesc :=
  ⟨C8_global_rebuild.1 ["A"] (fun _ => [⟨"x", 30⟩, ⟨"y", 1⟩]) [("A", [⟨"z", 7⟩])],
   C8_global_rebuild.2.1 ["A"] (fun _ => [⟨"x", 30⟩, ⟨"y", 1⟩]) ["A:f"] [("A", [⟨"z", 7⟩])]
     (by decide),
   C8_global_rebuild.2.2 "CAN" [{ name := "MB51$a.xlsx", ftype := "-", size := 2097152 }] [] [] []⟩

/-! ## C10 — artifact state vs processed-set deduplication -/

/-- C10: (1) no job whose base name has *both* its `.knfo` and its `.meta`
artifact in the scanned artifact sets is ever enqueued by a scan; (2) a
discovered regular `.xlsx` file matching a pattern whose `.knfo` exists
without a `.meta` is enqueued even when its key is already in the
processed set — the artifact state overrides the processed-set
deduplication. -/
theorem C10_artifact_scan :
    (∀ (ctx : String) (xls : List RemoteFile) (kn mt : List (List Char))
        (proc : List String) (j : Job), j ∈ scanCtx ctx xls kn mt proc →
      ¬ (kn.contains (baseLower j.name ++ ".knfo".toList) = true ∧
         mt.contains (baseLower j.name ++ ".meta".toList) = true)) ∧
    (∀ (ctx : String) (xls : List RemoteFile) (kn mt : List (List Char))
        (proc : List String) (f : RemoteFile), f ∈ xls →
      f.ftype = "-" → endsXlsx f.name = true → patternHit f.name = true →
      kn.contains (baseLower f.name ++ ".knfo".toList) = true →
      mt.contains (baseLower f.name ++ ".meta".toList) = false →
      proc.contains (keyOf ctx f.name) = true →
      ({ name := f.name, sizeMB := f.size / (1024 * 1024) } : Job)
        ∈ scanCtx ctx xls kn mt proc) := by
  constructor
  · intro ctx xls kn mt proc j hj
    have hj' : j ∈ scanItems ctx xls kn mt proc :=
      (List.perm_insertionSort sizeDesc _).mem_iff.mp (by simpa [scanCtx] using hj)
    simp only [scanItems, List.mem_filterMap] at hj'
    obtain ⟨f, hf, heq⟩ := hj'
    split at heq
    · split at heq
      · split at heq
        · cases heq
        · split at heq
          · cases heq
          · rename_i hboth _
            cases heq
            rintro ⟨hk, hm⟩
            exact hboth (by rw [hk, hm]; rfl)
      · cases heq
    · cases heq
  · intro ctx xls kn mt proc f hf hft hx hp hkn hmt hproc
    have hkn' : baseLower f.name ++ ['.', 'k', 'n', 'f', 'o'] ∈ kn := by simpa using hkn
    have hmt' : baseLower f.name ++ ['.', 'm', 'e', 't', 'a'] ∉ mt := by simpa using hmt
    have hproc' : keyOf ctx f.name ∈ proc := by simpa using hproc
    have : ({ name := f.name, sizeMB := f.size / (1024 * 1024) } : Job)
        ∈ scanItems ctx xls kn mt proc := by
      simp only [scanItems, List.mem_filterMap]
      exact ⟨f, hf, by simp [hft, hx, hp, hkn', hmt', hproc']⟩
    simpa [scanCtx] using (List.perm_insertionSort sizeDesc _).mem_iff.mpr this

/-- Witness for C10: a pattern-matching `.xlsx` whose key is already in the
processed set is enqueued again because its `.knfo` exists without a
`.meta`. -/
theorem C10_artifact_scan_witness :
    ({ name := "MB51$a.xlsx", sizeMB := 2 } : Job)
      ∈ scanCtx "CAN" [{ name := "MB51$a.xlsx", ftype := "-", size := 2097152 }]
          ["mb51$a.knfo".toList] [] ["CAN:MB51$a.xlsx"] :=
  C10_artifact_scan.2 "CAN" [{ name := "MB51$a.xlsx", ftype := "-", size := 2097152 }]
    ["mb51$a.knfo".toList] [] ["CAN:MB51$a.xlsx"]
    { name := "MB51$a.xlsx", ftype := "-", size := 2097152 }
    (by decide) rfl (by decide) (by decide) (by decide) (by decide) (by decide)

/-! ## C9 — tick re-entrancy -/

/-- C9: for any tick body (including one that throws midway — the `catch`
at `excelAutoKNFO.js:598` only logs, so such a body is modelled by the
state it reached), (1) invoking `tick` while `ticking` is set returns
immediately with the whole scheduler state unchanged and nothing
dispatched; (2) a tick that does run always ends with the re-entrancy flag
cleared. -/
theorem C9_tick_reentrancy (body : SchedState → SchedState × List Pick) (st : SchedState) :
    (st.ticking = true → tickRun body st = (st, [])) ∧
    (st.ticking = false → ((tickRun body st).1).ticking = false) := by
  constructor
  · intro h; simp [tickRun, h]
  · intro h; simp [tickRun, h]

/-- Witness for C9: a re-entrant call with the real tick body is a no-op,
and a non-re-entrant call ends with the flag cleared. -/
theorem C9_tick_reentrancy_witness :
    (let st : SchedState :=
       { queues := [("CAN", [⟨"f", 1⟩])], inFlight := [], processedOK := [],
         flags := [], failedFiles := [], phase := .IDLE, ticking := true }
     tickRun (tickBody ["CAN"] (fun _ => []) (fun _ => .ok)) st = (st, [])) ∧
    (let st : SchedState :=
       { queues := [("CAN", [⟨"f", 1⟩])], inFlight := [], processedOK := [],
         flags := [], failedFiles := [], phase := .IDLE, ticking := false }
     ((tickRun (tickBody ["CAN"] (fun _ => []) (fun _ => .ok)) st).1).ticking = false) :=
  ⟨(C9_tick_reentrancy (tickBody ["CAN"] (fun _ => []) (fun _ => .ok))
      { queues := [("CAN", [⟨"f", 1⟩])], inFlight := [], processedOK := [],
        flags := [], failedFiles := [], phase := .IDLE, ticking := true }).1 rfl,
   (C9_tick_reentrancy (tickBody ["CAN"] (fun _ => []) (fun _ => .ok))
      { queues := [("CAN", [⟨"f", 1⟩])], inFlight := [], processedOK := [],
        flags := [], failedFiles := [], phase := .IDLE, ticking := false }).2 rfl⟩

end Etl


